import Mathlib

/-!
# Verification of the email delivery dashboard (`app.py`)

Shallow embedding of the classification core of the dashboard:
loading the four CSV inputs, normalizing the identifier column,
deduplicating the universe, assigning a status to every contact by
a fixed-priority rule, counting statuses, and looking up a single
address.

Conventions of the embedding:
* A CSV cell of the identifier column is `Option String`; `none`
  models a null/NaN cell.
* A loaded file is its identifier column: `none` for the column
  models the declared column being absent from the file.
* An input category is `Option InputFile`: `none` models the file
  not existing on disk.
* Python `str.strip().lower()` is modelled by trimming whitespace
  from both ends of the character list and lower-casing each char.
* A pandas set becomes a `List String` used only through membership.
-/

namespace EmailDashboard

/-- A cell of an identifier column; `none` models a null/NaN value. -/
abbrev Cell := Option String

/-- Normalization used both by the loader and by the lookup box:
`str.strip().str.lower()` — trim surrounding whitespace, then
lower-case.  Written by structural recursion over the character list
(rather than through `String.trim`/`String.toLower`, which recurse on
string positions) so that terms evaluate by kernel reduction. -/
def normalize (s : String) : String :=
  ⟨(((s.data.dropWhile Char.isWhitespace).reverse.dropWhile
      Char.isWhitespace).reverse).map Char.toLower⟩

/-- Model of `str.strip().str.lower()` applied elementwise to a column: keeps
null values null (pandas `.str` accessors map NaN to NaN). -/
def cleanEmail (c : Cell) : Cell := c.map normalize

/-- Model of `set(df[col].dropna().str.strip().str.lower())`: drop null cells,
then normalize.  Modelled as the list of members; only membership is
ever consumed. -/
def buildSet (cells : List Cell) : List String :=
  (cells.filterMap id).map normalize

/-- Membership of a (possibly null) cleaned cell in an outcome set:
in Python, `nan in set_of_strings` is `False`. -/
def memSet (c : Cell) (s : List String) : Bool :=
  match c with
  | none => false
  | some v => s.contains v

/-- Function `get_status` from `app.py`: fixed-priority classification of one
cleaned identifier. -/
def get_status (succ hard soft : List String) (email : Cell) : String :=
  if memSet email succ then "Successful"
  else if memSet email hard then "Hard Bounce"
  else if memSet email soft then "Soft Bounce"
  else "Upload Failure (Derived)"

/-- Modelled from the spec (§4.2 Classifier): scan the category list
in declared order and return the name of the first category whose set
contains the identifier; if none matches, return the fixed fallback
label.  This definition follows the spec's words and is compared with
`get_status`, which is translated from the code. -/
def spec_scan_categories (cats : List (String × List String)) (email : Cell) : String :=
  match cats with
  | [] => "Upload Failure (Derived)"
  | (name, s) :: rest =>
      if memSet email s then name else spec_scan_categories rest email

/-- Model of `df.drop_duplicates(subset=['clean_email'], keep='first')`:
keep a row iff its cleaned key was not seen before.  pandas treats
null keys as duplicates of one another, as does equality on
`Option String`. -/
def dedupAux (seen : List Cell) : List Cell → List Cell
  | [] => []
  | c :: cs =>
      if cleanEmail c ∈ seen then dedupAux seen cs
      else c :: dedupAux (cleanEmail c :: seen) cs

/-- Deduplication of the universe by cleaned key, first occurrence wins. -/
def dedupFirst (cells : List Cell) : List Cell := dedupAux [] cells

/-- A row of the final report: the original display value, the cleaned
key, and the assigned status. -/
structure ReportEntry where
  email : Cell
  clean_email : Cell
  status : String
deriving DecidableEq, Repr

/-- A loaded input file, reduced to its declared identifier column;
`none` models the column being absent. -/
structure InputFile where
  col : Option (List Cell)
deriving DecidableEq, Repr

/-- The four declared inputs; `none` models a missing file. -/
structure Inputs where
  original : Option InputFile
  successful : Option InputFile
  soft_bounce : Option InputFile
  hard_bounce : Option InputFile
deriving DecidableEq, Repr

/-- Paths from `CONFIG` in `app.py`. -/
def origPath : String := "soai_l1_all_cohorts.csv"

def succPath : String := "total_successfull.csv"

def softPath : String := "soft_bounces.csv"

def hardPath : String := "hard_bounces.csv"

/-- The fatal load-time failures of `load_and_diagnose_data`:
a missing file (with its path) or a missing identifier column
(with the column name and the file's path).  In `app.py` both are
surfaced with `st.error` and the function returns `None`. -/
inductive LoadError where
  | missingFile (path : String)
  | missingColumn (colName : String) (path : String)
deriving DecidableEq, Repr

/-- Function `load_and_diagnose_data` from `app.py`.  Files are read in
`CONFIG` order (original, successful, soft_bounce, hard_bounce) and
the first `FileNotFoundError` aborts; then the identifier column of
each frame is checked in the same order and the first missing column
aborts; otherwise the outcome sets are built, the universe is cleaned
and deduplicated, and every surviving row receives its status. -/
def load_and_diagnose_data (inp : Inputs) : Except LoadError (List ReportEntry) :=
  match inp.original with
  | none => .error (.missingFile origPath)
  | some o =>
  match inp.successful with
  | none => .error (.missingFile succPath)
  | some su =>
  match inp.soft_bounce with
  | none => .error (.missingFile softPath)
  | some so =>
  match inp.hard_bounce with
  | none => .error (.missingFile hardPath)
  | some ha =>
  match o.col with
  | none => .error (.missingColumn "email" origPath)
  | some ocells =>
  match su.col with
  | none => .error (.missingColumn "email" succPath)
  | some sucells =>
  match so.col with
  | none => .error (.missingColumn "email" softPath)
  | some socells =>
  match ha.col with
  | none => .error (.missingColumn "email" hardPath)
  | some hacells =>
  let succ := buildSet sucells
  let hard := buildSet hacells
  let soft := buildSet socells
  .ok ((dedupFirst ocells).map fun c =>
    { email := c
      clean_email := cleanEmail c
      status := get_status succ hard soft (cleanEmail c) })

/-- The status column of a report. -/
def statuses (rep : List ReportEntry) : List String :=
  rep.map (·.status)

/-- First-occurrence list of the distinct values of a column. -/
def distinctsAux (seen : List String) : List String → List String
  | [] => []
  | s :: ss =>
      if s ∈ seen then distinctsAux seen ss
      else s :: distinctsAux (s :: seen) ss

/-- Model of `final_report['status'].value_counts()`: one `(value, count)` pair
per value that occurs in the column.  pandas presents the pairs in
descending-count order; no consumer in `app.py` reads the order (the
counts are consumed through `.get` and as chart labels), so the pairs
are kept here in first-occurrence order. -/
def value_counts (l : List String) : List (String × Nat) :=
  (distinctsAux [] l).map fun s => (s, l.count s)

/-- Model of `status_counts.get(key, default)` on the frequency table. -/
def counts_get (vc : List (String × Nat)) (key : String) (dflt : Nat) : Nat :=
  match vc.find? (fun p => p.1 == key) with
  | some p => p.2
  | none => dflt

/-- Metric `total = len(final_report)`. -/
def total_contacts (rep : List ReportEntry) : Nat := rep.length

/-- Metric `successful = status_counts.get("Successful", 0)`. -/
def successful_metric (rep : List ReportEntry) : Nat :=
  counts_get (value_counts (statuses rep)) "Successful" 0

/-- Metric `failures = total - successful`. -/
def failures_metric (rep : List ReportEntry) : Nat :=
  total_contacts rep - successful_metric rep

/-- Outcome of the individual email lookup box: either the matched
row's status, or the distinct "Can't Find" outcome. -/
inductive LookupResult where
  | found (status : String)
  | notFound
deriving DecidableEq, Repr

/-- The lookup tool of `app.py`: normalize the free-text query exactly
as loading does, filter the report on `clean_email`, take the first
matching row's status; an empty filter result is the non-fatal
"Can't Find" outcome. -/
def email_lookup (rep : List ReportEntry) (raw : String) : LookupResult :=
  let clean := normalize raw
  match rep.find? (fun ent => ent.clean_email == some clean) with
  | some ent => .found ent.status
  | none => .notFound

/-- Some declared input file does not exist. -/
def fileMissing (inp : Inputs) : Prop :=
  inp.original = none ∨ inp.successful = none ∨
  inp.soft_bounce = none ∨ inp.hard_bounce = none

/-- Some loaded file lacks the declared identifier column. -/
def columnMissing (inp : Inputs) : Prop :=
  inp.original = some ⟨none⟩ ∨ inp.successful = some ⟨none⟩ ∨
  inp.soft_bounce = some ⟨none⟩ ∨ inp.hard_bounce = some ⟨none⟩

/-- The surfaced error names an actually offending input: for a missing
file, the path of a category whose file does not exist; for a missing
column, the declared column name together with the path of a category
whose file lacks it. -/
def errorNamesOffender (inp : Inputs) : LoadError → Prop
  | .missingFile p =>
      (inp.original = none ∧ p = origPath) ∨
      (inp.successful = none ∧ p = succPath) ∨
      (inp.soft_bounce = none ∧ p = softPath) ∨
      (inp.hard_bounce = none ∧ p = hardPath)
  | .missingColumn colName p =>
      colName = "email" ∧
      ((inp.original = some ⟨none⟩ ∧ p = origPath) ∨
       (inp.successful = some ⟨none⟩ ∧ p = succPath) ∨
       (inp.soft_bounce = some ⟨none⟩ ∧ p = softPath) ∨
       (inp.hard_bounce = some ⟨none⟩ ∧ p = hardPath))

/-- The pipeline produced no report at all and the surfaced error names
an offending input. -/
def abortsNamingOffender (inp : Inputs) : Prop :=
  match load_and_diagnose_data inp with
  | .ok _ => False
  | .error e => errorNamesOffender inp e

/-!
## Helper lemmas
-/

/-- Function `load_and_diagnose_data` on four present files with present columns
computes the deduplicated, classified report. -/
theorem load_full_eq (ocells sucells socells hacells : List Cell) :
    load_and_diagnose_data
        ⟨some ⟨some ocells⟩, some ⟨some sucells⟩, some ⟨some socells⟩, some ⟨some hacells⟩⟩
      = .ok ((dedupFirst ocells).map fun c =>
          { email := c
            clean_email := cleanEmail c
            status := get_status (buildSet sucells) (buildSet hacells) (buildSet socells)
              (cleanEmail c) }) := rfl

/-- Function `get_status` agrees with the spec's first-matching-category scan over
the declared priority order. -/
theorem get_status_eq_spec_scan (succ hard soft : List String) (e : Cell) :
    get_status succ hard soft e =
      spec_scan_categories
        [("Successful", succ), ("Hard Bounce", hard), ("Soft Bounce", soft)] e := by
  simp only [get_status, spec_scan_categories]

/-- Function `get_status` only produces the four labels of the status enumeration. -/
theorem get_status_cases (succ hard soft : List String) (e : Cell) :
    get_status succ hard soft e = "Successful" ∨
    get_status succ hard soft e = "Hard Bounce" ∨
    get_status succ hard soft e = "Soft Bounce" ∨
    get_status succ hard soft e = "Upload Failure (Derived)" := by
  unfold get_status
  by_cases h1 : memSet e succ = true
  · simp [h1]
  · by_cases h2 : memSet e hard = true
    · simp [h1, h2]
    · by_cases h3 : memSet e soft = true
      · simp [h1, h2, h3]
      · simp [h1, h2, h3]

/-- Every survivor of deduplication has an unseen key and is the first
element of the scanned list bearing its key. -/
theorem find?_of_mem_dedupAux {c : Cell} :
    ∀ (cs seen : List Cell), c ∈ dedupAux seen cs →
      cleanEmail c ∉ seen ∧
        cs.find? (fun x => cleanEmail x == cleanEmail c) = some c := by
  intro cs
  induction cs with
  | nil => intro seen h; simp [dedupAux] at h
  | cons c' cs ih =>
    intro seen h
    simp only [dedupAux] at h
    by_cases hc' : cleanEmail c' ∈ seen
    · rw [if_pos hc'] at h
      obtain ⟨hns, hf⟩ := ih seen h
      have hne : (cleanEmail c' == cleanEmail c) = false := by
        rw [beq_eq_false_iff_ne]
        intro he
        exact hns (he ▸ hc')
      refine ⟨hns, ?_⟩
      rw [List.find?_cons, hne]
      exact hf
    · rw [if_neg hc'] at h
      rcases List.mem_cons.mp h with rfl | hmem
      · refine ⟨hc', ?_⟩
        rw [List.find?_cons]
        simp
      · obtain ⟨hns, hf⟩ := ih _ hmem
        have hne : (cleanEmail c' == cleanEmail c) = false := by
          rw [beq_eq_false_iff_ne]
          intro he
          exact hns (he ▸ List.mem_cons_self _ _)
        refine ⟨fun hs => hns (List.mem_cons_of_mem _ hs), ?_⟩
        rw [List.find?_cons, hne]
        exact hf

/-- A key already marked as seen reappears zero times among the
deduplication survivors. -/
theorem countP_dedupAux_eq_zero {x : Cell} :
    ∀ (cs seen : List Cell), cleanEmail x ∈ seen →
      (dedupAux seen cs).countP (fun c => cleanEmail c == cleanEmail x) = 0 := by
  intro cs
  induction cs with
  | nil => intro seen _; simp [dedupAux]
  | cons c' cs ih =>
    intro seen hx
    simp only [dedupAux]
    by_cases hc' : cleanEmail c' ∈ seen
    · rw [if_pos hc']
      exact ih seen hx
    · rw [if_neg hc', List.countP_cons]
      have hne : (cleanEmail c' == cleanEmail x) = false := by
        rw [beq_eq_false_iff_ne]
        intro he
        exact hc' (he ▸ hx)
      rw [hne, ih (cleanEmail c' :: seen) (List.mem_cons_of_mem _ hx)]
      simp

/-- A key that occurs in the scanned list and is not yet seen appears
exactly once among the deduplication survivors. -/
theorem countP_dedupAux_eq_one {x : Cell} :
    ∀ (cs seen : List Cell), x ∈ cs → cleanEmail x ∉ seen →
      (dedupAux seen cs).countP (fun c => cleanEmail c == cleanEmail x) = 1 := by
  intro cs
  induction cs with
  | nil => intro seen h _; simp at h
  | cons c' cs ih =>
    intro seen hx hns
    simp only [dedupAux]
    by_cases hc' : cleanEmail c' ∈ seen
    · rw [if_pos hc']
      rcases List.mem_cons.mp hx with rfl | hmem
      · exact absurd hc' hns
      · exact ih seen hmem hns
    · rw [if_neg hc', List.countP_cons]
      by_cases heq : cleanEmail c' = cleanEmail x
      · rw [if_pos (by rw [beq_iff_eq]; exact heq)]
        rw [countP_dedupAux_eq_zero cs (cleanEmail c' :: seen)
          (heq ▸ List.mem_cons_self _ _)]
      · rw [if_neg (by rw [beq_iff_eq]; exact heq)]
        rcases List.mem_cons.mp hx with rfl | hmem
        · exact absurd rfl heq
        · rw [ih (cleanEmail c' :: seen) hmem
            (by simp [List.mem_cons, heq, hns, Ne.symm heq])]

/-- Membership in the first-occurrence distinct list. -/
theorem mem_distinctsAux {a : String} :
    ∀ (l seen : List String), a ∈ distinctsAux seen l ↔ a ∈ l ∧ a ∉ seen := by
  intro l
  induction l with
  | nil => intro seen; simp [distinctsAux]
  | cons s ss ih =>
    intro seen
    simp only [distinctsAux]
    by_cases hs : s ∈ seen
    · rw [if_pos hs, ih seen]
      constructor
      · rintro ⟨ha, hna⟩
        exact ⟨List.mem_cons_of_mem _ ha, hna⟩
      · rintro ⟨ha, hna⟩
        rcases List.mem_cons.mp ha with rfl | ha'
        · exact absurd hs hna
        · exact ⟨ha', hna⟩
    · rw [if_neg hs]
      constructor
      · intro h
        rcases List.mem_cons.mp h with rfl | h'
        · exact ⟨List.mem_cons_self _ _, hs⟩
        · obtain ⟨ha, hna⟩ := (ih (s :: seen)).mp h'
          exact ⟨List.mem_cons_of_mem _ ha,
            fun hmem => hna (List.mem_cons_of_mem _ hmem)⟩
      · rintro ⟨ha, hna⟩
        by_cases has : a = s
        · exact has ▸ List.mem_cons_self _ _
        · rcases List.mem_cons.mp ha with rfl | ha'
          · exact absurd rfl has
          · refine List.mem_cons_of_mem _ ((ih (s :: seen)).mpr ⟨ha', ?_⟩)
            intro hmem
            rcases List.mem_cons.mp hmem with rfl | h''
            · exact has rfl
            · exact hna h''

/-- Locating a key in the frequency table built over first-occurrence
distinct values. -/
theorem find?_value_countsAux (k : String) (f : String → Nat) :
    ∀ (l seen : List String),
      (((distinctsAux seen l).map fun s => (s, f s)).find? fun p => p.1 == k)
        = if k ∈ l ∧ k ∉ seen then some (k, f k) else none := by
  intro l
  induction l with
  | nil => intro seen; simp [distinctsAux]
  | cons s ss ih =>
    intro seen
    simp only [distinctsAux]
    by_cases hs : s ∈ seen
    · rw [if_pos hs, ih seen]
      by_cases hk : k = s
      · have h1 : ¬(k ∈ ss ∧ k ∉ seen) := fun ⟨_, hna⟩ => hna (hk ▸ hs)
        have h2 : ¬(k ∈ s :: ss ∧ k ∉ seen) := fun ⟨_, hna⟩ => hna (hk ▸ hs)
        rw [if_neg h1, if_neg h2]
      · have h3 : (k ∈ ss ∧ k ∉ seen) ↔ (k ∈ s :: ss ∧ k ∉ seen) := by
          simp [List.mem_cons, hk]
        exact if_congr h3 rfl rfl
    · rw [if_neg hs, List.map_cons]
      by_cases hk : k = s
      · subst hk
        rw [if_pos ⟨List.mem_cons_self _ _, hs⟩, List.find?_cons]
        simp
      · have hcond : ((s, f s).1 == k) = false := beq_eq_false_iff_ne.mpr (Ne.symm hk)
        rw [List.find?_cons, hcond]
        have h3 : (k ∈ ss ∧ k ∉ s :: seen) ↔ (k ∈ s :: ss ∧ k ∉ seen) := by
          simp [List.mem_cons, hk]
        exact (ih (s :: seen)).trans (if_congr h3 rfl rfl)

/-- Reading a key with `.get` on the frequency table returns the true number of
occurrences (default `0` for an absent key). -/
theorem counts_get_value_counts (l : List String) (k : String) :
    counts_get (value_counts l) k 0 = l.count k := by
  unfold counts_get value_counts
  rw [find?_value_countsAux]
  by_cases h : k ∈ l
  · simp [h]
  · simp [h, List.count_eq_zero.mpr h]

/-- A list whose members all lie among four pairwise-distinct values has
length equal to the sum of the four occurrence counts. -/
theorem length_eq_count_four (a b c d : String) :
    ∀ l : List String, (∀ x ∈ l, x = a ∨ x = b ∨ x = c ∨ x = d) →
      a ≠ b → a ≠ c → a ≠ d → b ≠ c → b ≠ d → c ≠ d →
      l.length = l.count a + l.count b + l.count c + l.count d := by
  intro l
  induction l with
  | nil => intro _ _ _ _ _ _ _; simp
  | cons x l ih =>
    intro hmem hab hac had hbc hbd hcd
    have hl := ih (fun y hy => hmem y (List.mem_cons_of_mem _ hy)) hab hac had hbc hbd hcd
    rcases hmem x (List.mem_cons_self _ _) with rfl | rfl | rfl | rfl <;>
      simp [List.count_cons, beq_iff_eq, hab, hac, had, hbc, hbd, hcd,
        Ne.symm hab, Ne.symm hac, Ne.symm had, Ne.symm hbc, Ne.symm hbd, Ne.symm hcd,
        hl] <;> omega

/-!
## Claims
-/

/-- C1: For every contact in the deduplicated universe, the assigned
status is the name of the first matching category scanned in the fixed
priority order Successful, then Hard Bounce, then Soft Bounce; in
particular, every report entry whose identifier is present in both the
successful set and the hard_bounce set is assigned "Successful". -/
theorem claim_priority_order
    (ocells sucells socells hacells : List Cell) (rep : List ReportEntry)
    (hload : load_and_diagnose_data
        ⟨some ⟨some ocells⟩, some ⟨some sucells⟩, some ⟨some socells⟩, some ⟨some hacells⟩⟩
      = .ok rep) :
    (∀ ent ∈ rep, ent.status =
        spec_scan_categories
          [("Successful", buildSet sucells), ("Hard Bounce", buildSet hacells),
            ("Soft Bounce", buildSet socells)] ent.clean_email) ∧
    (∀ ent ∈ rep,
        memSet ent.clean_email (buildSet sucells) = true →
        memSet ent.clean_email (buildSet hacells) = true →
        ent.status = "Successful") := by
  rw [load_full_eq] at hload
  injection hload with hrep
  subst hrep
  constructor
  · intro ent hent
    obtain ⟨c, _, rfl⟩ := List.mem_map.mp hent
    exact get_status_eq_spec_scan _ _ _ _
  · intro ent hent h1 h2
    obtain ⟨c, _, rfl⟩ := List.mem_map.mp hent
    have h1' : memSet (cleanEmail c) (buildSet sucells) = true := h1
    show get_status _ _ _ (cleanEmail c) = "Successful"
    unfold get_status
    rw [h1']
    simp

/-- Witness for C1: on a run where "a@x.com" lies in both the successful
and the hard_bounce sets, its assigned status is "Successful". -/
theorem claim_priority_order_witness :
    ReportEntry.status
        { email := some "a@x.com", clean_email := some "a@x.com", status := "Successful" }
      = "Successful" := by
  have h := claim_priority_order [some "a@x.com"] [some "a@x.com"] [] [some "a@x.com"]
    [{ email := some "a@x.com", clean_email := some "a@x.com", status := "Successful" }] rfl
  exact h.2 _ (by decide) (by decide) (by decide)

/-- C2: Every universe contact whose normalized identifier lies in
none of the outcome sets is assigned the fixed fallback label
"Upload Failure (Derived)". -/
theorem claim_fallback
    (ocells sucells socells hacells : List Cell) (rep : List ReportEntry)
    (hload : load_and_diagnose_data
        ⟨some ⟨some ocells⟩, some ⟨some sucells⟩, some ⟨some socells⟩, some ⟨some hacells⟩⟩
      = .ok rep) :
    ∀ ent ∈ rep,
      memSet ent.clean_email (buildSet sucells) = false →
      memSet ent.clean_email (buildSet hacells) = false →
      memSet ent.clean_email (buildSet socells) = false →
      ent.status = "Upload Failure (Derived)" := by
  rw [load_full_eq] at hload
  injection hload with hrep
  subst hrep
  intro ent hent h1 h2 h3
  obtain ⟨c, _, rfl⟩ := List.mem_map.mp hent
  have h1' : memSet (cleanEmail c) (buildSet sucells) = false := h1
  have h2' : memSet (cleanEmail c) (buildSet hacells) = false := h2
  have h3' : memSet (cleanEmail c) (buildSet socells) = false := h3
  show get_status _ _ _ (cleanEmail c) = "Upload Failure (Derived)"
  unfold get_status
  rw [h1', h2', h3']
  simp

/-- Witness for C2: a contact found in no outcome file is reported as
"Upload Failure (Derived)". -/
theorem claim_fallback_witness :
    ReportEntry.status
        { email := some "c@x.com", clean_email := some "c@x.com",
          status := "Upload Failure (Derived)" }
      = "Upload Failure (Derived)" := by
  have h := claim_fallback [some "c@x.com"] [] [] []
    [{ email := some "c@x.com", clean_email := some "c@x.com",
       status := "Upload Failure (Derived)" }] rfl
  exact h _ (by decide) (by decide) (by decide) (by decide)

/-- C3: The report contains exactly one entry per distinct
normalized identifier occurring in the universe input, and each entry's
display identifier is the first occurrence, in file order, of a cell
normalizing to that entry's key. -/
theorem claim_dedup_first
    (ocells sucells socells hacells : List Cell) (rep : List ReportEntry)
    (hload : load_and_diagnose_data
        ⟨some ⟨some ocells⟩, some ⟨some sucells⟩, some ⟨some socells⟩, some ⟨some hacells⟩⟩
      = .ok rep) :
    (∀ x ∈ ocells,
        rep.countP (fun ent => ent.clean_email == cleanEmail x) = 1) ∧
    (∀ ent ∈ rep,
        ocells.find? (fun c => cleanEmail c == ent.clean_email) = some ent.email) := by
  rw [load_full_eq] at hload
  injection hload with hrep
  subst hrep
  constructor
  · intro x hx
    rw [List.countP_map]
    exact countP_dedupAux_eq_one ocells [] hx (List.not_mem_nil _)
  · intro ent hent
    obtain ⟨c, hc, rfl⟩ := List.mem_map.mp hent
    exact (find?_of_mem_dedupAux ocells [] hc).2

/-- Witness for C3: a universe with the duplicates "A@X.com" and
" a@x.com " yields one report entry, displayed with the first
occurrence's original form. -/
theorem claim_dedup_first_witness :
    List.countP
        (fun (ent : ReportEntry) => ent.clean_email == cleanEmail (some " a@x.com "))
        [{ email := some "A@X.com", clean_email := some "a@x.com",
           status := "Upload Failure (Derived)" }] = 1 ∧
    List.find?
        (fun c => cleanEmail c ==
          ReportEntry.clean_email
            { email := some "A@X.com", clean_email := some "a@x.com",
              status := "Upload Failure (Derived)" })
        [some "A@X.com", some " a@x.com "] = some (some "A@X.com") := by
  have h := claim_dedup_first [some "A@X.com", some " a@x.com "] [] [] []
    [{ email := some "A@X.com", clean_email := some "a@x.com",
       status := "Upload Failure (Derived)" }] rfl
  exact ⟨h.1 (some " a@x.com ") (by decide), h.2 _ (by decide)⟩

/-- C4 counterexample: On a run where no contact is a soft bounce,
the produced frequency table has no "Soft Bounce" entry at all — it does
not appear with count zero as the claim states. -/
theorem claim_counts_cover_enum_cx :
    load_and_diagnose_data
        ⟨some ⟨some [some "a@x.com"]⟩, some ⟨some [some "a@x.com"]⟩,
          some ⟨some []⟩, some ⟨some []⟩⟩
      = .ok [{ email := some "a@x.com", clean_email := some "a@x.com",
               status := "Successful" }] ∧
    value_counts (statuses
        [{ email := some "a@x.com", clean_email := some "a@x.com",
           status := "Successful" }])
      = [("Successful", 1)] ∧
    "Soft Bounce" ∉ (value_counts (statuses
        [{ email := some "a@x.com", clean_email := some "a@x.com",
           status := "Successful" }])).map Prod.fst :=
  ⟨rfl, by decide, by decide⟩

/-- C4 amended: The frequency table contains an entry exactly for
the status labels reached by at least one contact — a label reached by
no contact is absent from the table rather than present with count zero
— and a `.get` read with default `0` returns the true occurrence count,
hence `0` for the absent labels. -/
theorem claim_counts_occurring_only (rep : List ReportEntry) (s : String) :
    (s ∈ (value_counts (statuses rep)).map Prod.fst ↔ s ∈ statuses rep) ∧
    counts_get (value_counts (statuses rep)) s 0 = (statuses rep).count s := by
  constructor
  · unfold value_counts
    rw [List.map_map]
    have hid : (Prod.fst ∘ fun v => (v, (statuses rep).count v)) = id := rfl
    rw [hid, List.map_id, mem_distinctsAux]
    simp
  · exact counts_get_value_counts _ _

/-- C5 counterexample: A null identifier in the universe file is not
dropped: it survives as a report entry with null display value and null
normalized key; and a whitespace-only identifier in an outcome file is
not dropped either: it yields the empty string as an outcome-set
member. -/
theorem claim_drop_null_rows_cx :
    load_and_diagnose_data
        ⟨some ⟨some [none]⟩, some ⟨some [some " "]⟩, some ⟨some []⟩, some ⟨some []⟩⟩
      = .ok [{ email := none, clean_email := none,
               status := "Upload Failure (Derived)" }] ∧
    "" ∈ buildSet [some " "] :=
  ⟨rfl, by decide⟩

/-- C5 amended: Outcome-set construction drops exactly the null
cells — every member of an outcome set is the normalization of some
non-null cell, though a whitespace-only cell contributes the empty
string — while universe rows are not filtered at all: a null identifier
in the universe survives deduplication and yields exactly one report
entry with a null normalized key. -/
theorem claim_null_handling
    (cells ocells sucells socells hacells : List Cell) (rep : List ReportEntry)
    (hload : load_and_diagnose_data
        ⟨some ⟨some ocells⟩, some ⟨some sucells⟩, some ⟨some socells⟩, some ⟨some hacells⟩⟩
      = .ok rep)
    (hnull : (none : Cell) ∈ ocells) :
    (∀ v ∈ buildSet cells, ∃ s : String, some s ∈ cells ∧ v = normalize s) ∧
    rep.countP (fun ent => ent.clean_email == (none : Cell)) = 1 := by
  rw [load_full_eq] at hload
  injection hload with hrep
  subst hrep
  constructor
  · intro v hv
    unfold buildSet at hv
    obtain ⟨c, hc, rfl⟩ := List.mem_map.mp hv
    obtain ⟨a, ha, hac⟩ := List.mem_filterMap.mp hc
    obtain rfl : a = some c := hac
    exact ⟨c, ha, rfl⟩
  · rw [List.countP_map]
    exact countP_dedupAux_eq_one ocells [] hnull (List.not_mem_nil _)

/-- Witness for C5 (amended) at a universe containing a null cell. -/
theorem claim_null_handling_witness :
    List.countP (fun (ent : ReportEntry) => ent.clean_email == (none : Cell))
        [{ email := some "a@x.com", clean_email := some "a@x.com",
           status := "Upload Failure (Derived)" },
         { email := none, clean_email := none,
           status := "Upload Failure (Derived)" }] = 1 := by
  have h := claim_null_handling [some " "] [some "a@x.com", none, none] [] [] []
    [{ email := some "a@x.com", clean_email := some "a@x.com",
       status := "Upload Failure (Derived)" },
     { email := none, clean_email := none,
       status := "Upload Failure (Derived)" }] rfl (by decide)
  exact h.2

/-- C6: If any declared input file does not exist, or a loaded file
lacks its declared identifier column, the pipeline produces no report at
all and the surfaced error names the offending path (and for a missing
column, the column name). -/
theorem claim_load_error_aborts (inp : Inputs)
    (h : fileMissing inp ∨ columnMissing inp) :
    abortsNamingOffender inp := by
  obtain ⟨o, su, so, ha⟩ := inp
  rcases o with _ | ⟨oc⟩
  · exact Or.inl ⟨rfl, rfl⟩
  rcases su with _ | ⟨suc⟩
  · exact Or.inr (Or.inl ⟨rfl, rfl⟩)
  rcases so with _ | ⟨soc⟩
  · exact Or.inr (Or.inr (Or.inl ⟨rfl, rfl⟩))
  rcases ha with _ | ⟨hac⟩
  · exact Or.inr (Or.inr (Or.inr ⟨rfl, rfl⟩))
  rcases oc with _ | ocells
  · exact ⟨rfl, Or.inl ⟨rfl, rfl⟩⟩
  rcases suc with _ | sucells
  · exact ⟨rfl, Or.inr (Or.inl ⟨rfl, rfl⟩)⟩
  rcases soc with _ | socells
  · exact ⟨rfl, Or.inr (Or.inr (Or.inl ⟨rfl, rfl⟩))⟩
  rcases hac with _ | hacells
  · exact ⟨rfl, Or.inr (Or.inr (Or.inr ⟨rfl, rfl⟩))⟩
  exfalso
  simp only [fileMissing, columnMissing] at h
  rcases h with (h | h | h | h) | (h | h | h | h) <;> simp at h

/-- Witness for C6: with "soft_bounces.csv" missing, the run aborts
naming that path and produces no report. -/
theorem claim_load_error_aborts_witness :
    abortsNamingOffender ⟨some ⟨some []⟩, some ⟨some []⟩, none, some ⟨some []⟩⟩ :=
  claim_load_error_aborts _ (Or.inl (Or.inr (Or.inr (Or.inl rfl))))

/-- C7: The lookup normalizes its free-text input exactly as loading
does, so any two query strings with the same trimmed, lower-cased form
return the same result. -/
theorem claim_lookup_normalization (rep : List ReportEntry) (q1 q2 : String)
    (h : normalize q1 = normalize q2) :
    email_lookup rep q1 = email_lookup rep q2 := by
  unfold email_lookup
  rw [h]

/-- Witness for C7: "Foo@Bar.com", " foo@bar.com " and "foo@bar.com"
all return the same status. -/
theorem claim_lookup_normalization_witness :
    email_lookup
        [{ email := some "Foo@Bar.com", clean_email := some "foo@bar.com",
           status := "Successful" }] "Foo@Bar.com"
      = email_lookup
        [{ email := some "Foo@Bar.com", clean_email := some "foo@bar.com",
           status := "Successful" }] " foo@bar.com " ∧
    email_lookup
        [{ email := some "Foo@Bar.com", clean_email := some "foo@bar.com",
           status := "Successful" }] " foo@bar.com "
      = email_lookup
        [{ email := some "Foo@Bar.com", clean_email := some "foo@bar.com",
           status := "Successful" }] "foo@bar.com" :=
  ⟨claim_lookup_normalization _ "Foo@Bar.com" " foo@bar.com " (by decide),
   claim_lookup_normalization _ " foo@bar.com " "foo@bar.com" (by decide)⟩

/-- C8: A query matching no universe entry returns the distinct
not-found result — a normal outcome of the total lookup function,
distinguishable from every assigned status. -/
theorem claim_lookup_not_found (rep : List ReportEntry) (q : String)
    (h : ∀ ent ∈ rep, ent.clean_email ≠ some (normalize q)) :
    email_lookup rep q = .notFound ∧
    ∀ s : String, LookupResult.found s ≠ .notFound := by
  constructor
  · have hf : rep.find? (fun ent => ent.clean_email == some (normalize q)) = none :=
      List.find?_eq_none.mpr fun x hx => by
        rw [beq_iff_eq]
        exact h x hx
    simp only [email_lookup]
    rw [hf]
  · exact fun s hcontra => LookupResult.noConfusion hcontra

/-- Witness for C8: looking up "zzz@nowhere.com" against a universe
that does not contain it yields the not-found result. -/
theorem claim_lookup_not_found_witness :
    email_lookup
        [{ email := some "a@x.com", clean_email := some "a@x.com",
           status := "Successful" }] "zzz@nowhere.com"
      = .notFound :=
  (claim_lookup_not_found
    [{ email := some "a@x.com", clean_email := some "a@x.com",
       status := "Successful" }] "zzz@nowhere.com" (by decide)).1

/-- C9: Classification is a pure, deterministic function of the
loaded inputs: two runs over identical inputs produce the identical
report, identical per-status counts, and identical lookup results.  In
this embedding every operation is a pure function, so determinism is
definitional. -/
theorem claim_determinism (inp : Inputs) (q : String) :
    load_and_diagnose_data inp = load_and_diagnose_data inp ∧
    (load_and_diagnose_data inp).map (fun rep => value_counts (statuses rep))
      = (load_and_diagnose_data inp).map (fun rep => value_counts (statuses rep)) ∧
    (load_and_diagnose_data inp).map (fun rep => email_lookup rep q)
      = (load_and_diagnose_data inp).map (fun rep => email_lookup rep q) :=
  ⟨rfl, rfl, rfl⟩

/-- C10: The displayed "Total Failures" metric — total unique
contacts minus the "Successful" count read from the frequency table —
equals the sum of the Hard Bounce, Soft Bounce and
Upload Failure (Derived) counts. -/
theorem claim_failures_metric
    (ocells sucells socells hacells : List Cell) (rep : List ReportEntry)
    (hload : load_and_diagnose_data
        ⟨some ⟨some ocells⟩, some ⟨some sucells⟩, some ⟨some socells⟩, some ⟨some hacells⟩⟩
      = .ok rep) :
    failures_metric rep =
      (statuses rep).count "Hard Bounce" + (statuses rep).count "Soft Bounce" +
        (statuses rep).count "Upload Failure (Derived)" := by
  rw [load_full_eq] at hload
  injection hload with hrep
  subst hrep
  have hmem : ∀ x ∈ statuses ((dedupFirst ocells).map fun c =>
      { email := c
        clean_email := cleanEmail c
        status := get_status (buildSet sucells) (buildSet hacells) (buildSet socells)
          (cleanEmail c) }),
      x = "Successful" ∨ x = "Hard Bounce" ∨ x = "Soft Bounce" ∨
        x = "Upload Failure (Derived)" := by
    intro x hx
    simp only [statuses] at hx
    obtain ⟨ent, hent, rfl⟩ := List.mem_map.mp hx
    obtain ⟨c, _, rfl⟩ := List.mem_map.mp hent
    exact get_status_cases _ _ _ _
  have hlen := length_eq_count_four "Successful" "Hard Bounce" "Soft Bounce"
    "Upload Failure (Derived)" _ hmem (by decide) (by decide) (by decide)
    (by decide) (by decide) (by decide)
  unfold failures_metric total_contacts successful_metric
  rw [counts_get_value_counts]
  have hlen2 : (statuses ((dedupFirst ocells).map fun c =>
      { email := c
        clean_email := cleanEmail c
        status := get_status (buildSet sucells) (buildSet hacells) (buildSet socells)
          (cleanEmail c) })).length
      = ((dedupFirst ocells).map fun c =>
          ({ email := c
             clean_email := cleanEmail c
             status := get_status (buildSet sucells) (buildSet hacells) (buildSet socells)
               (cleanEmail c) } : ReportEntry)).length := List.length_map _ _
  omega

/-- Witness for C10 on the spec's scenario (one success, one hard
bounce, one derived upload failure): failures = 3 − 1 = 2 = 1 + 0 + 1. -/
theorem claim_failures_metric_witness :
    failures_metric
        [{ email := some "a@x.com", clean_email := some "a@x.com",
           status := "Successful" },
         { email := some "b@x.com", clean_email := some "b@x.com",
           status := "Hard Bounce" },
         { email := some "c@x.com", clean_email := some "c@x.com",
           status := "Upload Failure (Derived)" }]
      = (statuses
          [{ email := some "a@x.com", clean_email := some "a@x.com",
             status := "Successful" },
           { email := some "b@x.com", clean_email := some "b@x.com",
             status := "Hard Bounce" },
           { email := some "c@x.com", clean_email := some "c@x.com",
             status := "Upload Failure (Derived)" }]).count "Hard Bounce" +
        (statuses
          [{ email := some "a@x.com", clean_email := some "a@x.com",
             status := "Successful" },
           { email := some "b@x.com", clean_email := some "b@x.com",
             status := "Hard Bounce" },
           { email := some "c@x.com", clean_email := some "c@x.com",
             status := "Upload Failure (Derived)" }]).count "Soft Bounce" +
        (statuses
          [{ email := some "a@x.com", clean_email := some "a@x.com",
             status := "Successful" },
           { email := some "b@x.com", clean_email := some "b@x.com",
             status := "Hard Bounce" },
           { email := some "c@x.com", clean_email := some "c@x.com",
             status := "Upload Failure (Derived)" }]).count "Upload Failure (Derived)" :=
  claim_failures_metric
    [some "a@x.com", some "b@x.com", some "c@x.com"]
    [some "a@x.com"] [] [some "b@x.com"] _ rfl

end EmailDashboard

